import Mathlib

/-!
Verification development for `dwm-msg.c` (the dwm-ipc command-line client).

The development shallowly embeds the protocol-relevant parts of the program:

* the argument-classification predicates `is_signed_int`, `is_float`,
  `is_unsigned_int` and the inline classification performed by `run_command`
  (JSON integer / JSON float / JSON string per argument);
* the wire framing produced by `send_message` (magic, u32 length, u8 type,
  payload) and parsed by `recv_message`, including its two read loops with
  their EOF / transient-error handling, and the retry wrapper `read_socket`;
* the write loop `write_socket` and its caller `send_message`;
* the session traces of `subscribe` and of the subscribe branch of `main`.

Bytes are modelled as `Nat` (callers keep them below 256), machine integers
as `Nat`/`Int` with explicit bounds where overflow matters, and the socket as
an explicit list of read (or write) events, which lets partial reads, EOF and
transient `EINTR`/`EAGAIN` conditions at arbitrary points be expressed.
-/

/-! ## Character-level helpers (C `ctype` semantics on ASCII bytes) -/

/-- C `isdigit` on an ASCII character: code in `['0','9']`, i.e. 48..57. -/
def isDigitChar (c : Char) : Bool := 48 ≤ c.toNat && c.toNat ≤ 57

/-- C `isspace`: space, TAB, LF, VT, FF, CR. -/
def isSpaceC (c : Char) : Bool :=
  c.toNat = 32 || c.toNat = 9 || c.toNat = 10 || c.toNat = 11 || c.toNat = 12 || c.toNat = 13

/-! ## Argument classification predicates (`is_signed_int`, `is_float`,
`is_unsigned_int` from `dwm-msg.c`) -/

/-- Loop body of `is_signed_int`: index `i` runs over the characters; a digit
always continues, `'-'` continues only at index 0, anything else rejects. -/
def scanSigned : Nat → List Char → Bool
  | _, [] => true
  | i, c :: cs =>
    if isDigitChar c then scanSigned (i + 1) cs
    else if i = 0 && c == '-' then scanSigned (i + 1) cs
    else false

/-- Model of `is_signed_int`: digits with an optional leading `'-'`; note the
scan accepts the empty string and the bare string `"-"` (no digit required). -/
def is_signed_int (s : String) : Bool := scanSigned 0 s.data

/-- Loop body of `is_float`: one interior `'.'` (not at index 0 nor at index
`len - 1`) and one `'-'` at index 0 are allowed besides digits. -/
def scanFloat (len : Nat) : Nat → Bool → Bool → List Char → Bool
  | _, _, _, [] => true
  | i, dotUsed, minusUsed, c :: cs =>
    if isDigitChar c then scanFloat len (i + 1) dotUsed minusUsed cs
    else if !dotUsed && c == '.' && i != 0 && i != len - 1 then
      scanFloat len (i + 1) true minusUsed cs
    else if !minusUsed && c == '-' && i = 0 then scanFloat len (i + 1) dotUsed true cs
    else false

/-- Model of `is_float` from `dwm-msg.c`. -/
def is_float (s : String) : Bool := scanFloat s.data.length 0 false false s.data

/-- Model of `is_unsigned_int`: every character is a digit. -/
def is_unsigned_int (s : String) : Bool := s.data.all isDigitChar

/-! ## Numeric conversion models (`atoll`, `atof`) -/

/-- Value of a big-endian decimal digit string, as accumulated left to right
(`acc * 10 + digit`). Non-digit characters never reach this function. -/
def digitsVal (cs : List Char) : Nat :=
  cs.foldl (fun a c => 10 * a + (c.toNat - 48)) 0

/-- Model of C `atoll` on a character list: skip leading whitespace, consume an
optional sign, then the longest digit run.  The value is taken exactly (as an
unbounded `Int`); conversion of values outside the `long long` range is
undefined behaviour in C, so theorems restrict to in-range values. -/
def atollChars (cs : List Char) : Int :=
  let cs1 := cs.dropWhile isSpaceC
  let cs2 := if cs1.head? == some '-' || cs1.head? == some '+' then cs1.tail else cs1
  let n := digitsVal (cs2.takeWhile isDigitChar)
  if cs1.head? == some '-' then -(n : Int) else (n : Int)

/-- Model of C `atoll` on a string. -/
def atoll (s : String) : Int := atollChars s.data

/-- Model of C `atof` restricted to its exact decimal reading: the result
`(m, k)` denotes the rational `m / 10 ^ k`.  The program converts the result
`double` to `float` before emitting it; that binary rounding is outside this
integer-exact embedding, so the parsed decimal value is kept exactly. -/
def atofChars (cs : List Char) : Int × Nat :=
  let cs1 := cs.dropWhile isSpaceC
  let cs2 := if cs1.head? == some '-' || cs1.head? == some '+' then cs1.tail else cs1
  let ip := cs2.takeWhile isDigitChar
  let rest := cs2.dropWhile isDigitChar
  let fp := if rest.head? == some '.' then rest.tail.takeWhile isDigitChar else []
  let m : Nat := digitsVal ip * 10 ^ fp.length + digitsVal fp
  (if cs1.head? == some '-' then -(m : Int) else (m : Int), fp.length)

/-- Model of C `atof` on a string (exact scaled-decimal result). -/
def atofScaled (s : String) : Int × Nat := atofChars s.data

/-- Rational denoted by a scaled-decimal pair `(m, k)`, namely `m / 10 ^ k`. -/
def scaledVal (m : Int) (k : Nat) : ℚ := (m : ℚ) / 10 ^ k

/-- JSON value emitted for one `run_command` argument: integer, float (kept as
the exact scaled decimal `(mantissa, fracDigits)`), or verbatim string. -/
inductive ArgVal where
  | int (n : Int)
  | float (mantissa : Int) (fracDigits : Nat)
  | str (s : String)
deriving DecidableEq

/-- Classification of one argument, performed inline by `run_command`:
`is_signed_int` first (emit `atoll` value), then `is_float` (emit `atof`
value), else the string verbatim. -/
def classify_arg (arg : String) : ArgVal :=
  if is_signed_int arg then .int (atoll arg)
  else if is_float arg then .float (atofScaled arg).1 (atofScaled arg).2
  else .str arg

/-- The `args` array of a `run_command` payload: each argument is classified
independently, in order. -/
def run_command_args (args : List String) : List ArgVal := args.map classify_arg

/-! ## Wire framing (`dwm_ipc_header_t`, `send_message`) -/

/-- The 7 magic bytes `"DWM-IPC"`. -/
def magicBytes : List Nat := [68, 87, 77, 45, 73, 80, 67]

/-- Little-endian byte encoding of a `uint32_t` (the value is truncated to 32
bits exactly as storage in the packed header field would). -/
def u32le (n : Nat) : List Nat :=
  [n % 256, n / 256 % 256, n / 65536 % 256, n / 16777216 % 256]

/-- Decoding of a `uint32_t` from four little-endian bytes (the `memcpy` of
the size field in `recv_message`). -/
def u32dec (l : List Nat) : Nat :=
  l.getD 0 0 + 256 * l.getD 1 0 + 65536 * l.getD 2 0 + 16777216 * l.getD 3 0

/-- The closed `IPCMessageType` enumeration from `dwm-msg.c`. -/
inductive IPCMessageType where
  | IPC_TYPE_RUN_COMMAND
  | IPC_TYPE_GET_MONITORS
  | IPC_TYPE_GET_TAGS
  | IPC_TYPE_GET_LAYOUTS
  | IPC_TYPE_GET_DWM_CLIENT
  | IPC_TYPE_SUBSCRIBE
  | IPC_TYPE_EVENT
deriving DecidableEq

/-- Numeric tag of each message type (the enum values 0..6). -/
def ipcTypeNat : IPCMessageType → Nat
  | .IPC_TYPE_RUN_COMMAND => 0
  | .IPC_TYPE_GET_MONITORS => 1
  | .IPC_TYPE_GET_TAGS => 2
  | .IPC_TYPE_GET_LAYOUTS => 3
  | .IPC_TYPE_GET_DWM_CLIENT => 4
  | .IPC_TYPE_SUBSCRIBE => 5
  | .IPC_TYPE_EVENT => 6

/-- Byte sequence produced by `send_message`: the packed header
(`magic(7) || size(u32) || type(u8)`) followed by `size` payload bytes copied
from `msg` (callers pass `size` equal to the payload length, except the
zero-argument queries which pass size 1 with the one-byte buffer `""`). -/
def sendFrame (t : IPCMessageType) (size : Nat) (msg : List Nat) : List Nat :=
  magicBytes ++ u32le size ++ [ipcTypeNat t] ++ msg.take size

/-- The size field a receiver reads back out of a frame's header. -/
def headerSizeField (frame : List Nat) : Nat := u32dec ((frame.drop 7).take 4)

/-- The payload bytes of a frame (everything after the 12-byte header). -/
def framePayload (frame : List Nat) : List Nat := frame.drop 12

/-- Frame sent by `get_monitors`: type 1, declared size 1, and the single
byte copied from the empty C string literal `""`, namely the NUL byte. -/
def get_monitors_frame : List Nat := sendFrame .IPC_TYPE_GET_MONITORS 1 [0]

/-- Frame sent by `get_tags` (type 2, declared size 1, one NUL byte). -/
def get_tags_frame : List Nat := sendFrame .IPC_TYPE_GET_TAGS 1 [0]

/-- Frame sent by `get_layouts` (type 3, declared size 1, one NUL byte). -/
def get_layouts_frame : List Nat := sendFrame .IPC_TYPE_GET_LAYOUTS 1 [0]

/-! ## Socket read model

A socket is a list of read events.  Each `read` call consumes the next event:
a `chunk` delivers up to the requested number of bytes (a longer chunk is
split, modelling short reads), `eof` is a zero-length read, and `intr b` is a
failing read (`n == -1`) whose `errno` is transient (`EINTR`/`EAGAIN`) when
`b` is `true`.  An exhausted event list behaves as EOF. -/

inductive Ev where
  | chunk : List Nat → Ev
  | eof : Ev
  | intr : Bool → Ev
deriving DecidableEq

/-- Result of one of `recv_message`'s read loops: the accumulated bytes or an
error code (-1 read error with its errno transience, -2 / -3 EOF codes),
together with the unconsumed remainder of the stream. -/
inductive LoopRes where
  | ok (bytes : List Nat) (rest : List Ev)
  | err (code : Int) (transient : Bool) (rest : List Ev)
deriving DecidableEq

/-- The header read loop of `recv_message` (lines 82..102): reads until `need`
bytes are accumulated; a zero-length read yields -2 when nothing has been
accumulated and -3 otherwise; any failing read (`n == -1`) returns -1 at once,
whatever `errno` is — transient conditions are NOT retried inside this loop. -/
def headerLoop (need : Nat) (acc : List Nat) (evs : List Ev) : LoopRes :=
  if need ≤ acc.length then .ok acc evs
  else match evs with
    | [] => if acc.length = 0 then .err (-2) false [] else .err (-3) false []
    | .eof :: rest => if acc.length = 0 then .err (-2) false rest else .err (-3) false rest
    | .intr b :: rest => .err (-1) b rest
    | .chunk l :: rest =>
      if l.length = 0 then
        (if acc.length = 0 then .err (-2) false rest else .err (-3) false rest)
      else if l.length ≤ need - acc.length then headerLoop need (acc ++ l) rest
      else .ok (acc ++ l.take (need - acc.length)) (.chunk (l.drop (need - acc.length)) :: rest)

/-- The payload read loop of `recv_message` (lines 124..141): a zero-length
read always yields -2 (after freeing the buffer); a failing read with a
transient `errno` is retried in place; other failures yield -1. -/
def payloadLoop (need : Nat) (acc : List Nat) (evs : List Ev) : LoopRes :=
  if need ≤ acc.length then .ok acc evs
  else match evs with
    | [] => .err (-2) false []
    | .eof :: rest => .err (-2) false rest
    | .intr b :: rest => if b then payloadLoop need acc rest else .err (-1) false rest
    | .chunk l :: rest =>
      if l.length = 0 then .err (-2) false rest
      else if l.length ≤ need - acc.length then payloadLoop need (acc ++ l) rest
      else .ok (acc ++ l.take (need - acc.length)) (.chunk (l.drop (need - acc.length)) :: rest)

/-- Result of `recv_message`.  On success: received type byte, declared size,
payload (owned by the caller), rest of the stream.  On error: the return code,
whether `errno` was transient at the point of return, the number of payload
buffers still allocated when returning (`allocLive`; the source frees the
buffer on every payload-loop error path, so it is 0 on all errors), and the
rest of the stream. -/
inductive RecvRes where
  | ok (type size : Nat) (payload : List Nat) (rest : List Ev)
  | err (code : Int) (transient : Bool) (allocLive : Nat) (rest : List Ev)
deriving DecidableEq

/-- Model of `recv_message`: read the 12-byte header, check the magic bytes
(mismatch returns -3 before any payload byte is read or any buffer is
allocated), extract the size and type fields, then read `size` payload
bytes. -/
def recvMessage (evs : List Ev) : RecvRes :=
  match headerLoop 12 [] evs with
  | .err c t rest => .err c t 0 rest
  | .ok hdr rest =>
    if hdr.take 7 = magicBytes then
      match payloadLoop (u32dec ((hdr.drop 7).take 4)) [] rest with
      | .err c t rest2 => .err c t 0 rest2
      | .ok payload rest2 => .ok ((hdr.drop 11).headD 0) (u32dec ((hdr.drop 7).take 4)) payload rest2
    else .err (-3) false 0 rest

/-- Result of `read_socket`: a received message, a fatal termination with the
failing `recv_message` code (the source calls `err(EXIT_FAILURE, ...)`), or
fuel exhaustion of the model's retry loop. -/
inductive RSRes where
  | ok (type size : Nat) (payload : List Nat) (rest : List Ev)
  | fatal (code : Int) (rest : List Ev)
  | out
deriving DecidableEq

/-- Model of `read_socket`: call `recv_message` until it succeeds, retrying
only when it returned -1 with a transient `errno`; any other failure is fatal.
Each retry restarts `recv_message` from scratch on the remaining stream. -/
def readSocket : Nat → List Ev → RSRes
  | 0, _ => .out
  | fuel + 1, evs =>
    match recvMessage evs with
    | .ok t s p r => .ok t s p r
    | .err c tr _ r => if c = -1 ∧ tr then readSocket fuel r else .fatal c r

/-! ## Socket write model (`write_socket`, `send_message`) -/

/-- Write events: `accept k` lets the next `write` call transfer up to `k`
bytes; `werr b` makes it fail, transiently (`EAGAIN`/`EWOULDBLOCK`/`EINTR`)
when `b` is `true`.  When the event list is exhausted the (blocking) socket
accepts everything that is left. -/
inductive WEv where
  | accept (k : Nat)
  | werr (transient : Bool)
deriving DecidableEq

/-- Model of `write_socket`: loop until `count` bytes are written; a failing
write with transient `errno` is retried, any other failure returns -1 (a
possibly partial write); on completion the full count is returned. -/
def writeSocket (count written : Nat) (wevs : List WEv) : Int × List WEv :=
  if count ≤ written then ((written : Int), wevs)
  else match wevs with
    | [] => ((count : Int), [])
    | .accept k :: rest => writeSocket count (written + min k (count - written)) rest
    | .werr b :: rest => if b then writeSocket count written rest else (-1, rest)

/-- Model of `send_message`'s result: it builds the 12-byte header plus
`size`-byte payload buffer, calls `write_socket` on it, DISCARDS the value
`write_socket` returned, and returns 0 unconditionally. -/
def send_message_ret (t : IPCMessageType) (size : Nat) (msg : List Nat)
    (wevs : List WEv) : Int × List WEv :=
  (0, (writeSocket (sendFrame t size msg).length 0 wevs).2)

/-! ## Session trace model (`subscribe` and the subscribe branch of `main`) -/

/-- Observable protocol actions of the client: sending one framed message
(type tag and JSON payload text), or performing one blocking
`read_socket`-based receive of a whole message (`print_socket_reply` and
`flush_socket_reply` both do exactly one such receive). -/
inductive ClientAct where
  | send (t : Nat) (payload : String)
  | recvReply
deriving DecidableEq

/-- JSON escaping of one character as performed by `yajl_gen_string`: quote,
backslash and the control characters are escaped, everything else is copied. -/
def jsonEscapeChar (c : Char) : String :=
  if c == '"' then "\\\""
  else if c == '\\' then "\\\\"
  else if c.toNat = 8 then "\\b"
  else if c.toNat = 12 then "\\f"
  else if c == '\n' then "\\n"
  else if c.toNat = 13 then "\\r"
  else if c == '\t' then "\\t"
  else if c.toNat < 32 then
    "\\u00" ++ String.mk [Nat.digitChar (c.toNat / 16), Nat.digitChar (c.toNat % 16)]
  else String.mk [c]

/-- JSON escaping of a whole string. -/
def jsonEscape (s : String) : String := String.join (s.data.map jsonEscapeChar)

/-- The payload `subscribe` generates for one event name. -/
def subscribePayload (event : String) : String :=
  "\x7b\"event\":\"" ++ jsonEscape event ++ "\",\"action\":\"subscribe\"\x7d"

/-- Trace of one `subscribe` call: send the subscribe message (type 5), then
consume exactly one reply (printed or silently flushed depending on the
`ignore_reply` flag — either way exactly one receive happens). -/
def subscribeTrace (event : String) : List ClientAct :=
  [ClientAct.send 5 (subscribePayload event), ClientAct.recvReply]

/-- Trace of the `do { print_socket_reply(); } while (monitor);` loop at the
end of `main`'s subscribe branch: the body runs once unconditionally, and with
`monitor` set it keeps running (`fuel` bounds how many further iterations the
model observes of the unbounded loop). -/
def doWhileTrace (monitor : Bool) (fuel : Nat) : List ClientAct :=
  ClientAct.recvReply :: (if monitor then List.replicate fuel ClientAct.recvReply else [])

/-- Trace of `main`'s subscribe branch: one `subscribe` call per requested
event name, then the do-while receive loop. -/
def subscribeModeTrace (events : List String) (monitor : Bool) (fuel : Nat) : List ClientAct :=
  (events.map subscribeTrace).flatten ++ doWhileTrace monitor fuel

/-! ## Claim-side vocabulary: decimal text of integers -/

/-- The decimal digit character for `d` (0..9 ↦ '0'..'9'). -/
def decDigitChar (d : Nat) : Char := Char.ofNat (48 + d)

/-- Big-endian decimal digit characters of a natural number (empty for 0). -/
def natDecChars (n : Nat) : List Char := ((Nat.digits 10 n).map decDigitChar).reverse

/-- Standard decimal text of an integer: no leading zeros, a `'-'` sign
exactly for negative values, `"0"` for zero. -/
def intDecimalText (i : Int) : String :=
  if i = 0 then "0"
  else if i < 0 then String.mk ('-' :: natDecChars i.natAbs)
  else String.mk (natDecChars i.natAbs)

/-- Leading-zero normalization of a signed decimal string: strip leading
zeros from the digit part (a value of zero prints as `"0"`, without sign) —
the "standard integer formatting" the claim allows.  Only meaningful on
strings of the signed-integer grammar that contain at least one digit. -/
def normalizeIntString (s : String) : String :=
  let ds := if s.data.head? == some '-' then s.data.tail else s.data
  let t := ds.dropWhile (fun c => c == '0')
  if t.isEmpty then "0"
  else if s.data.head? == some '-' then String.mk ('-' :: t)
  else String.mk t

/-! ## Helper lemmas -/

/-- Away from index 0 the signed-int scan accepts exactly all-digit runs. -/
theorem scanSigned_succ (cs : List Char) (i : Nat) :
    scanSigned (i + 1) cs = cs.all isDigitChar := by
  induction cs generalizing i with
  | nil => rfl
  | cons c cs ih =>
    rw [scanSigned]
    by_cases hd : isDigitChar c
    · simp [hd, ih]
    · simp [hd]

/-- Characterization of `is_signed_int` on a non-empty string. -/
theorem is_signed_int_cons (c : Char) (cs : List Char) (s : String) (h : s.data = c :: cs) :
    is_signed_int s = ((isDigitChar c || c == '-') && cs.all isDigitChar) := by
  rw [is_signed_int, h, scanSigned]
  by_cases hd : isDigitChar c
  · simp [hd, scanSigned_succ]
  · by_cases hm : c = '-'
    · simp [hd, hm, scanSigned_succ]
    · simp [hd, hm]

/-! ## Claim C1 — run-command argument classification -/

/-- C1 counterexample: the claim says the argument `"-"` alone fails both
numeric grammars and is emitted as a string; in the code `is_signed_int "-"`
succeeds (the scan accepts the sign with zero digits), so `run_command` emits
the JSON integer `atoll "-" = 0`, not the string `"-"`. -/
theorem claim1_dash_counterexample :
    classify_arg "-" = ArgVal.int 0 ∧ classify_arg "-" ≠ ArgVal.str "-" := by
  constructor
  · decide
  · decide

/-- C1 (amended): each run-command argument is classified independently by the
fixed precedence integer grammar, then float grammar, then string: `"42"` is
emitted as JSON integer 42, `"-7"` as integer -7, `"4.2"` via the float branch
with exact decimal value 4.2, `"-0.5"` via the float branch with value -0.5,
`"abc"` as the string `"abc"`, `"4.2.3"` as a string (second dot fails the
float grammar), `"3-3"` as a string — but `"-"` alone is accepted by the
integer grammar (a sign with no digits) and is emitted as the JSON integer 0. -/
theorem claim1_argument_classification :
    run_command_args ["42", "-7", "4.2", "-0.5", "abc", "4.2.3", "-", "3-3"] =
      [ArgVal.int 42, ArgVal.int (-7), ArgVal.float 42 1, ArgVal.float (-5) 1,
       ArgVal.str "abc", ArgVal.str "4.2.3", ArgVal.int 0, ArgVal.str "3-3"] ∧
    scaledVal 42 1 = (4.2 : ℚ) ∧ scaledVal (-5) 1 = (-0.5 : ℚ) := by
  refine ⟨by decide, ?_, ?_⟩
  · norm_num [scaledVal]
  · norm_num [scaledVal]

/-! ## Claim C9 — zero-argument queries declare payload length 1 -/

/-- C9: `get_monitors`, `get_tags` and `get_layouts` each send a frame whose
header declares a payload length of exactly 1 (never 0), the payload being
the single NUL byte copied from the empty C string — a placeholder with no
semantic content. -/
theorem claim9_placeholder_length :
    headerSizeField get_monitors_frame = 1 ∧ framePayload get_monitors_frame = [0] ∧
    headerSizeField get_tags_frame = 1 ∧ framePayload get_tags_frame = [0] ∧
    headerSizeField get_layouts_frame = 1 ∧ framePayload get_layouts_frame = [0] := by
  refine ⟨by decide, by decide, by decide, by decide, by decide, by decide⟩

/-! ## Claim C10 — the empty string is classified as the integer 0 -/

/-- C10: the empty argument `""` vacuously passes the signed-integer scan
(no characters are checked), so `run_command` emits it as the JSON integer 0
(`atoll "" = 0`) rather than as an empty JSON string; the float scan also
accepts it vacuously, but the integer branch is taken first. -/
theorem claim10_empty_string_integer :
    is_signed_int "" = true ∧ is_float "" = true ∧ classify_arg "" = ArgVal.int 0 := by
  refine ⟨by decide, by decide, by decide⟩

/-- Little-endian u32 encode/decode round trip for in-range values. -/
theorem u32_round (n : Nat) (h : n < 4294967296) : u32dec (u32le n) = n := by
  simp [u32le, u32dec]
  omega

/-- The header loop served a chunk at least as long as the 12 requested bytes:
it returns the first 12 bytes and pushes any excess back onto the stream. -/
theorem headerLoop_big_chunk (l : List Nat) (evs : List Ev) (h : 12 ≤ l.length) :
    headerLoop 12 [] (.chunk l :: evs) =
      .ok (l.take 12) (if l.length = 12 then evs else .chunk (l.drop 12) :: evs) := by
  rw [headerLoop.eq_def]
  simp only [List.length_nil, Nat.le_zero, List.nil_append, Nat.sub_zero]
  rw [if_neg (by omega)]
  by_cases h12 : l.length = 12
  · rw [if_neg (by omega), if_pos (by omega)]
    rw [headerLoop.eq_def]
    simp [h12, List.take_of_length_le (by omega : l.length ≤ 12)]
  · rw [if_neg (by omega), if_neg (by omega)]
    simp [h12]

/-- The header loop accumulated a partial header (1 to 11 bytes) and then the
peer closed the stream: the result is the error code -3. -/
theorem headerLoop_small_chunk_eof (l : List Nat) (rest : List Ev)
    (h1 : 1 ≤ l.length) (h2 : l.length < 12) :
    headerLoop 12 [] (.chunk l :: .eof :: rest) = .err (-3) false rest := by
  rw [headerLoop.eq_def]
  simp only [List.length_nil, List.nil_append, Nat.sub_zero]
  rw [if_neg (by omega), if_neg (by omega), if_pos (by omega)]
  rw [headerLoop.eq_def]
  rw [if_neg (by omega)]
  simp only []
  rw [if_neg (by omega)]

/-- A declared payload size of 0 makes the payload loop succeed at once. -/
theorem payloadLoop_zero (evs : List Ev) : payloadLoop 0 [] evs = .ok [] evs := by
  rw [payloadLoop.eq_def]
  simp

/-- The payload loop served a single chunk of exactly the requested length. -/
theorem payloadLoop_exact_chunk (n : Nat) (l : List Nat) (evs : List Ev)
    (h : l.length = n) (h0 : 0 < n) :
    payloadLoop n [] (.chunk l :: evs) = .ok l evs := by
  rw [payloadLoop.eq_def]
  simp only [List.length_nil, List.nil_append, Nat.sub_zero]
  rw [if_neg (by omega), if_neg (by omega), if_pos (by omega)]
  rw [payloadLoop.eq_def]
  rw [if_pos (by omega)]

/-- A zero-length read at the very start of the payload yields -2. -/
theorem payloadLoop_eof (n : Nat) (rest : List Ev) (h : 0 < n) :
    payloadLoop n [] (.eof :: rest) = .err (-2) false rest := by
  rw [payloadLoop.eq_def]
  rw [if_neg (by simp; omega)]

/-- A zero-length read after a partial payload chunk also yields -2. -/
theorem payloadLoop_partial_chunk_eof (n : Nat) (l : List Nat) (rest : List Ev)
    (h0 : 0 < l.length) (h1 : l.length < n) :
    payloadLoop n [] (.chunk l :: .eof :: rest) = .err (-2) false rest := by
  rw [payloadLoop.eq_def]
  simp only [List.length_nil, List.nil_append, Nat.sub_zero]
  rw [if_neg (by omega), if_neg (by omega), if_pos (by omega)]
  rw [payloadLoop.eq_def]
  rw [if_neg (by omega)]

/-- A well-formed frame delivered as one chunk decodes to its type byte,
declared size and payload, consuming the whole stream. -/
theorem recvMessage_of_frame (t : IPCMessageType) (payload : List Nat)
    (h : payload.length < 4294967296) :
    recvMessage [Ev.chunk (sendFrame t payload.length payload)] =
      .ok (ipcTypeNat t) payload.length payload [] := by
  by_cases hp : payload = []
  · subst hp
    cases t <;> decide
  · have hplen : payload.length ≠ 0 := by
      simpa [List.length_eq_zero] using hp
    have hsplit : sendFrame t payload.length payload =
        (magicBytes ++ u32le payload.length ++ [ipcTypeNat t]) ++ payload := by
      simp [sendFrame, List.take_length]
    have hhdr : (magicBytes ++ u32le payload.length ++ [ipcTypeNat t]).length = 12 := by
      simp [magicBytes, u32le]
    have hL : ((magicBytes ++ u32le payload.length ++ [ipcTypeNat t]) ++ payload).length =
        12 + payload.length := by
      rw [List.length_append, hhdr]
    have hmagic : (magicBytes ++ u32le payload.length ++ [ipcTypeNat t]).take 7 = magicBytes := by
      rw [List.append_assoc, List.take_left' (by simp [magicBytes])]
    have hsize : ((magicBytes ++ u32le payload.length ++ [ipcTypeNat t]).drop 7).take 4 =
        u32le payload.length := by
      rw [List.append_assoc, List.drop_left' (by simp [magicBytes])]
      rw [List.take_left' (by simp [u32le])]
    have hty : ((magicBytes ++ u32le payload.length ++ [ipcTypeNat t]).drop 11).headD 0 =
        ipcTypeNat t := by
      rw [List.drop_left' (by simp [magicBytes, u32le])]
      rfl
    rw [recvMessage, hsplit]
    rw [headerLoop_big_chunk _ _ (by rw [hL]; omega)]
    rw [hL, if_neg (by omega)]
    rw [List.take_left' hhdr, List.drop_left' hhdr]
    simp only [hmagic, hsize, hty, u32_round _ h, if_pos rfl]
    rw [payloadLoop_exact_chunk _ _ _ rfl (by omega)]
    simp

/-! ## Claim C2 — framing round trip -/

/-- C2: for every message type of the enumeration and every payload byte
sequence shorter than 2^32, decoding the frame produced by `send_message`
(magic(7), length(u32), type(u8), payload) yields back exactly the same type
tag and the same payload bytes, with the payload length equal to the header's
declared size (`recv_message` reports both, and they agree). -/
theorem claim2_roundtrip (t : IPCMessageType) (payload : List Nat)
    (hlen : payload.length < 4294967296) (hbytes : ∀ b ∈ payload, b < 256) :
    recvMessage [Ev.chunk (sendFrame t payload.length payload)] =
      .ok (ipcTypeNat t) payload.length payload [] :=
  recvMessage_of_frame t payload hlen

/-- C2 witness: the round trip evaluated on the subscribe type with a concrete
3-byte payload. -/
theorem claim2_roundtrip_witness :
    recvMessage [Ev.chunk (sendFrame .IPC_TYPE_SUBSCRIBE ([10, 20, 30] : List Nat).length
        [10, 20, 30])] = .ok 5 3 [10, 20, 30] [] :=
  claim2_roundtrip .IPC_TYPE_SUBSCRIBE [10, 20, 30] (by decide) (by decide)

/-! ## Claim C3 — EOF classification -/

/-- C3 counterexample: the claim says a zero-length read after partial
accumulation — of the header or of the payload — fails with a TruncatedMessage
error distinct from the EarlyEOF error.  In the code EOF while reading the
payload returns -2, the very same code that EOF with zero accumulated bytes
returns: here a complete header declaring a 1-byte payload followed by EOF
produces -2, exactly as the empty stream does, so the two cases are not
distinct. -/
theorem claim3_counterexample :
    recvMessage [Ev.chunk (magicBytes ++ u32le 1 ++ [6]), Ev.eof] = .err (-2) false 0 [] ∧
    recvMessage [Ev.eof] = .err (-2) false 0 [] := by
  constructor
  · decide
  · decide

/-- C3 (amended): a zero-length read while zero header bytes are accumulated
fails with code -2 (EarlyEOF); a zero-length read after partial accumulation
of the HEADER fails with the distinct code -3; but a zero-length read during
the PAYLOAD — whatever has been accumulated — fails with the same code -2 as
EarlyEOF, not a distinct one.  In every error case the model's count of
still-allocated payload buffers is 0: the payload buffer is released on every
payload-loop error path, and no buffer exists yet on header-loop errors. -/
theorem claim3_eof_classification :
    (∀ rest : List Ev, recvMessage (Ev.eof :: rest) = .err (-2) false 0 rest) ∧
    (∀ (l : List Nat) (rest : List Ev), 1 ≤ l.length → l.length < 12 →
      recvMessage (Ev.chunk l :: Ev.eof :: rest) = .err (-3) false 0 rest) ∧
    (∀ (ty sz : Nat) (payload : List Nat) (rest : List Ev),
      payload.length < sz → sz < 4294967296 →
      recvMessage (Ev.chunk ((magicBytes ++ u32le sz ++ [ty]) ++ payload) :: Ev.eof :: rest) =
        .err (-2) false 0 rest) := by
  refine ⟨?_, ?_, ?_⟩
  · intro rest
    rw [recvMessage, headerLoop.eq_def]
    simp
  · intro l rest h1 h2
    rw [recvMessage, headerLoop_small_chunk_eof _ _ h1 h2]
  · intro ty sz payload rest hlt hsz
    have hhdr : (magicBytes ++ u32le sz ++ [ty]).length = 12 := by
      simp [magicBytes, u32le]
    have hL : ((magicBytes ++ u32le sz ++ [ty]) ++ payload).length = 12 + payload.length := by
      rw [List.length_append, hhdr]
    have hmagic : (magicBytes ++ u32le sz ++ [ty]).take 7 = magicBytes := by
      rw [List.append_assoc, List.take_left' (by simp [magicBytes])]
    have hsize : ((magicBytes ++ u32le sz ++ [ty]).drop 7).take 4 = u32le sz := by
      rw [List.append_assoc, List.drop_left' (by simp [magicBytes])]
      rw [List.take_left' (by simp [u32le])]
    rw [recvMessage]
    rw [headerLoop_big_chunk _ _ (by rw [hL]; omega)]
    rw [List.take_left' hhdr, List.drop_left' hhdr, hL]
    by_cases hp : payload = []
    · subst hp
      rw [if_pos (by simp)]
      simp only [hmagic, hsize, u32_round _ hsz, if_pos rfl]
      rw [payloadLoop_eof _ _ (by simpa using hlt)]
      simp
    · have hplen : payload.length ≠ 0 := by
        simpa [List.length_eq_zero] using hp
      rw [if_neg (by omega)]
      simp only [hmagic, hsize, u32_round _ hsz, if_pos rfl]
      rw [payloadLoop_partial_chunk_eof _ _ _ (by omega) hlt]
      simp

/-- C3 witness: the three EOF shapes evaluated on concrete streams. -/
theorem claim3_eof_witness :
    recvMessage [Ev.eof] = .err (-2) false 0 [] ∧
    recvMessage [Ev.chunk [68, 87, 77], Ev.eof] = .err (-3) false 0 [] ∧
    recvMessage [Ev.chunk ((magicBytes ++ u32le 2 ++ [6]) ++ [65]), Ev.eof] =
      .err (-2) false 0 [] :=
  ⟨claim3_eof_classification.1 [],
   claim3_eof_classification.2.1 [68, 87, 77] [] (by decide) (by decide),
   claim3_eof_classification.2.2 6 2 [65] [] (by decide) (by decide)⟩

/-! ## Claim C5 — magic validation -/

/-- C5: any 12-byte inbound header whose first 7 bytes differ from the magic
marker is rejected with code -3, whatever its length and type fields hold;
the payload bytes that may follow are still unread (they remain on the
stream), no payload buffer has been allocated (`allocLive = 0`), and
`recv_message` returns at once — no resynchronization is attempted. -/
theorem claim5_bad_magic (hdr payload : List Nat) (hlen : hdr.length = 12)
    (hbad : hdr.take 7 ≠ magicBytes) :
    recvMessage [Ev.chunk (hdr ++ payload)] =
      .err (-3) false 0 (if payload = [] then [] else [Ev.chunk payload]) := by
  have hL : (hdr ++ payload).length = 12 + payload.length := by
    rw [List.length_append, hlen]
  rw [recvMessage]
  rw [headerLoop_big_chunk _ _ (by rw [hL]; omega)]
  rw [List.take_left' hlen, List.drop_left' hlen, hL]
  by_cases hp : payload = []
  · subst hp
    rw [if_pos (by simp)]
    simp [hbad]
  · have hplen : payload.length ≠ 0 := by
      simpa [List.length_eq_zero] using hp
    rw [if_neg (by omega)]
    simp [hbad, hp]

/-- C5 witness: a header of twelve zero bytes (declared length 0, type 0 —
well-formed fields) followed by two payload bytes is rejected with -3 and the
payload bytes stay unread on the stream. -/
theorem claim5_bad_magic_witness :
    recvMessage [Ev.chunk ([0, 0, 0, 0, 0, 0, 0, 0, 0, 0, 0, 0] ++ [9, 9])] =
      .err (-3) false 0 (if ([9, 9] : List Nat) = [] then [] else [Ev.chunk [9, 9]]) :=
  claim5_bad_magic [0, 0, 0, 0, 0, 0, 0, 0, 0, 0, 0, 0] [9, 9] (by decide) (by decide)

/-! ## Claim C4 — transient conditions and accumulation -/

/-- C4 (refuting evaluation): the claim says any interleaving of transient
conditions at any point — including mid-header — is retried silently and
accumulates the same bytes as a single full read.  The payload loop does
retry `EINTR`/`EAGAIN` in place, but the header loop returns -1 on ANY failing
read, and `read_socket` then restarts `recv_message` from scratch: the header
bytes already consumed are lost.  Concretely, a valid 13-byte frame delivered
as 3 bytes, a transient error, then the remaining 10 bytes makes the client
fail fatally with -3 (the restarted header read sees misaligned bytes), while
the same frame delivered whole is received intact. -/
theorem claim4_transient_header_loss :
    readSocket 5 [Ev.chunk ((sendFrame .IPC_TYPE_EVENT 1 [65]).take 3), Ev.intr true,
        Ev.chunk ((sendFrame .IPC_TYPE_EVENT 1 [65]).drop 3)] = .fatal (-3) [] ∧
    readSocket 5 [Ev.chunk (sendFrame .IPC_TYPE_EVENT 1 [65])] = .ok 6 1 [65] [] := by
  constructor
  · decide
  · decide

/-! ## Claim C6 — one-shot subscribe session -/

/-- C6 counterexample: the claim says a one-shot subscribe (streaming not
requested) consumes exactly one reply and is then done.  In `main`, after
`subscribe` has already consumed the one reply, the
`do { print_socket_reply(); } while (monitor);` loop runs its body once even
with `monitor` off, so the client performs a second blocking receive: the
trace contains two receive actions, not one. -/
theorem claim6_counterexample :
    subscribeModeTrace ["tag_change_event"] false 0 =
      [ClientAct.send 5 "\x7b\"event\":\"tag_change_event\",\"action\":\"subscribe\"\x7d",
       ClientAct.recvReply, ClientAct.recvReply] ∧
    (subscribeModeTrace ["tag_change_event"] false 0).count ClientAct.recvReply ≠ 1 := by
  constructor
  · decide
  · decide

/-- C6 (amended): a one-shot subscribe (streaming not requested) sends exactly
the JSON payload with the event name and the action `"subscribe"`, consumes
one reply inside `subscribe`, and then performs exactly one further blocking
receive (the unconditional first iteration of the do-while loop) before
exiting — two receives in total, never more; in streaming mode the same send
is followed by the reply receive and then an unbounded sequence of receives
(one per iteration observed), with nothing further ever sent. -/
theorem claim6_subscribe_trace (ev : String) (fuel : Nat) :
    subscribeModeTrace [ev] false fuel =
      [ClientAct.send 5 (subscribePayload ev), ClientAct.recvReply, ClientAct.recvReply] ∧
    subscribeModeTrace [ev] true fuel =
      ClientAct.send 5 (subscribePayload ev) :: ClientAct.recvReply :: ClientAct.recvReply ::
        List.replicate fuel ClientAct.recvReply := by
  constructor
  · simp [subscribeModeTrace, subscribeTrace, doWhileTrace]
  · simp [subscribeModeTrace, subscribeTrace, doWhileTrace]

/-! ## Claim C7 — write loop discipline and error disposition -/

/-- The write loop completes the full count whenever no non-transient error
occurs, whatever short writes and transient conditions are interleaved. -/
theorem writeSocket_no_fatal (wevs : List WEv) (count written : Nat)
    (hw : written ≤ count) (hok : ∀ e ∈ wevs, e ≠ WEv.werr false) :
    (writeSocket count written wevs).1 = (count : Int) := by
  induction wevs generalizing written with
  | nil =>
    rw [writeSocket.eq_def]
    by_cases hc : count ≤ written
    · rw [if_pos hc]
      simp
      omega
    · rw [if_neg hc]
  | cons e rest ih =>
    rw [writeSocket.eq_def]
    by_cases hc : count ≤ written
    · rw [if_pos hc]
      simp
      omega
    · rw [if_neg hc]
      match e with
      | .accept k =>
        exact ih (written + min k (count - written)) (by omega)
          (fun e he => hok e (List.mem_cons_of_mem _ he))
      | .werr b =>
        have hb : b = true := by
          cases b
          · exact absurd rfl (hok (.werr false) (List.mem_cons_self _ _))
          · rfl
        subst hb
        simp only [if_pos rfl]
        exact ih written (by omega) (fun e he => hok e (List.mem_cons_of_mem _ he))

/-- C7 counterexample: the claim says a non-transient write error aborts the
invocation with IOFailure and a non-zero exit rather than continuing.  In the
code `write_socket` does return -1, but `send_message` discards that return
value and returns 0: the invocation continues into the reply read.  Here the
very first write fails non-transiently, `write_socket` reports -1, and
`send_message` still reports success. -/
theorem claim7_counterexample :
    (writeSocket (sendFrame .IPC_TYPE_GET_MONITORS 1 [0]).length 0 [WEv.werr false]).1 = -1 ∧
    (send_message_ret .IPC_TYPE_GET_MONITORS 1 [0] [WEv.werr false]).1 = 0 := by
  constructor
  · decide
  · decide

/-- C7 (amended): the write primitive loops until all requested bytes are
written, retrying transient conditions (interrupted, would-block), and any
other write error makes `write_socket` stop and return -1; but its caller
`send_message` ignores that return value and returns 0 unconditionally, so a
failed write does not abort the invocation — the protocol exchange simply
continues. -/
theorem claim7_write_discipline :
    (∀ (count : Nat) (wevs : List WEv), (∀ e ∈ wevs, e ≠ WEv.werr false) →
      (writeSocket count 0 wevs).1 = (count : Int)) ∧
    (∀ (t : IPCMessageType) (size : Nat) (msg : List Nat) (wevs : List WEv),
      (send_message_ret t size msg wevs).1 = 0) := by
  constructor
  · intro count wevs hok
    exact writeSocket_no_fatal wevs count 0 (Nat.zero_le _) hok
  · intro t size msg wevs
    rfl

/-- C7 witness: a 13-byte frame written through two short writes and a
transient error completes in full, and `send_message` reports 0 even on a
stream whose first write fails non-transiently. -/
theorem claim7_write_witness :
    (writeSocket 13 0 [WEv.accept 5, WEv.werr true, WEv.accept 99]).1 = (13 : Int) ∧
    (send_message_ret .IPC_TYPE_GET_TAGS 1 [0] [WEv.werr false]).1 = 0 :=
  ⟨claim7_write_discipline.1 13 [WEv.accept 5, WEv.werr true, WEv.accept 99] (by decide),
   claim7_write_discipline.2 .IPC_TYPE_GET_TAGS 1 [0] [WEv.werr false]⟩

/-! ## Claim C8 — decimal text of integer-classified arguments -/

/-- A digit character is not whitespace. -/
theorem isSpaceC_of_digit (c : Char) (h : isDigitChar c = true) : isSpaceC c = false := by
  simp only [isDigitChar, Bool.and_eq_true, decide_eq_true_eq] at h
  simp only [isSpaceC, Bool.or_eq_false_iff, decide_eq_false_iff_not]
  omega

/-- A digit character is not the minus sign. -/
theorem ne_dash_of_digit (c : Char) (h : isDigitChar c = true) : (c == '-') = false := by
  simp only [isDigitChar, Bool.and_eq_true, decide_eq_true_eq] at h
  refine beq_eq_false_iff_ne.mpr ?_
  intro hc
  subst hc
  have h45 : ('-' : Char).toNat = 45 := by decide
  omega

/-- A digit character is not the plus sign. -/
theorem ne_plus_of_digit (c : Char) (h : isDigitChar c = true) : (c == '+') = false := by
  simp only [isDigitChar, Bool.and_eq_true, decide_eq_true_eq] at h
  refine beq_eq_false_iff_ne.mpr ?_
  intro hc
  subst hc
  have h43 : ('+' : Char).toNat = 43 := by decide
  omega

/-- Printing the value of a digit character gives the character back. -/
theorem decDigitChar_charVal (c : Char) (h : isDigitChar c = true) :
    decDigitChar (c.toNat - 48) = c := by
  simp only [isDigitChar, Bool.and_eq_true, decide_eq_true_eq] at h
  rw [decDigitChar, show 48 + (c.toNat - 48) = c.toNat by omega, Char.ofNat_toNat]

/-- A digit character other than `'0'` has a non-zero value. -/
theorem charVal_ne_zero (c : Char) (hd : isDigitChar c = true) (h0 : (c == '0') = false) :
    c.toNat - 48 ≠ 0 := by
  intro hz
  apply beq_eq_false_iff_ne.mp h0
  have hc := decDigitChar_charVal c hd
  rw [hz] at hc
  rw [← hc]
  decide

/-- `takeWhile` keeps a list all of whose elements satisfy the predicate. -/
theorem takeWhile_of_all (p : Char → Bool) (l : List Char) (h : l.all p = true) :
    l.takeWhile p = l := by
  induction l with
  | nil => rfl
  | cons c cs ih =>
    simp only [List.all_cons, Bool.and_eq_true] at h
    rw [List.takeWhile_cons_of_pos h.1, ih h.2]

/-- `dropWhile` preserves an `all` invariant. -/
theorem all_of_dropWhile (p q : Char → Bool) (l : List Char) (h : l.all q = true) :
    (l.dropWhile p).all q = true := by
  induction l with
  | nil => rfl
  | cons c cs ih =>
    simp only [List.all_cons, Bool.and_eq_true] at h
    rw [List.dropWhile_cons]
    by_cases hp : p c = true
    · rw [if_pos hp]
      exact ih h.2
    · rw [if_neg hp]
      simp [List.all_cons, h.1, h.2]

/-- The head of a non-empty `dropWhile` result fails the predicate. -/
theorem head_dropWhile_false (p : Char → Bool) (l : List Char) (c : Char) (r : List Char)
    (h : l.dropWhile p = c :: r) : p c = false := by
  induction l with
  | nil => simp at h
  | cons a l ih =>
    rw [List.dropWhile_cons] at h
    by_cases hp : p a = true
    · rw [if_pos hp] at h
      exact ih h
    · rw [if_neg hp] at h
      obtain ⟨rfl, -⟩ := List.cons.injEq .. ▸ h
      exact Bool.not_eq_true _ ▸ hp

/-- The left-to-right decimal accumulation equals `Nat.ofDigits` of the
reversed (little-endian) digit values. -/
theorem digitsVal_go (cs : List Char) (a : Nat) :
    cs.foldl (fun a c => 10 * a + (c.toNat - 48)) a =
      a * 10 ^ cs.length + Nat.ofDigits 10 ((cs.map (fun c => c.toNat - 48)).reverse) := by
  induction cs generalizing a with
  | nil => simp [Nat.ofDigits]
  | cons c cs ih =>
    rw [List.foldl_cons, ih]
    rw [List.map_cons, List.reverse_cons, Nat.ofDigits_append]
    simp only [List.length_reverse, List.length_map, List.length_cons, Nat.ofDigits_singleton,
      pow_succ]
    ring

/-- `digitsVal` as a `Nat.ofDigits` value. -/
theorem digitsVal_eq_ofDigits (cs : List Char) :
    digitsVal cs = Nat.ofDigits 10 ((cs.map (fun c => c.toNat - 48)).reverse) := by
  rw [digitsVal, digitsVal_go]
  simp

/-- A run of `'0'` characters has value 0. -/
theorem digitsVal_zeros (cs : List Char) (h : cs.all (fun c => c == '0') = true) :
    digitsVal cs = 0 := by
  induction cs with
  | nil => rfl
  | cons c cs ih =>
    simp only [List.all_cons, Bool.and_eq_true] at h
    have hc : c = '0' := beq_iff_eq.mp h.1
    subst hc
    rw [digitsVal, List.foldl_cons]
    rw [show (10 * 0 + ('0'.toNat - 48)) = 0 by decide]
    exact ih h.2

/-- Leading `'0'` characters do not change the accumulated value. -/
theorem digitsVal_dropZeros (ds : List Char) :
    digitsVal ds = digitsVal (ds.dropWhile (fun c => c == '0')) := by
  conv_lhs => rw [← List.takeWhile_append_dropWhile (p := fun c => c == '0') (l := ds)]
  rw [digitsVal, List.foldl_append]
  have hz : digitsVal (ds.takeWhile (fun c => c == '0')) = 0 := by
    apply digitsVal_zeros
    rw [List.all_eq_true]
    intro x hx
    exact List.mem_takeWhile_imp (p := fun c => c == '0') hx
  rw [digitsVal] at hz
  rw [hz]
  rfl

/-- Core inversion: on an all-digit string whose zero-stripped form is
`c :: r`, printing the accumulated value reproduces exactly `c :: r`, and the
value is non-zero. -/
theorem natDecChars_digitsVal (ds : List Char) (hall : ds.all isDigitChar = true)
    (c : Char) (r : List Char) (ht : ds.dropWhile (fun c => c == '0') = c :: r) :
    natDecChars (digitsVal ds) = c :: r ∧ digitsVal ds ≠ 0 := by
  have htall : (c :: r).all isDigitChar = true := by
    rw [← ht]
    exact all_of_dropWhile _ _ ds hall
  simp only [List.all_cons, Bool.and_eq_true] at htall
  obtain ⟨hcd, hrall⟩ := htall
  have hc0 : (c == '0') = false := head_dropWhile_false _ ds c r ht
  have hN : digitsVal ds = digitsVal (c :: r) := by rw [digitsVal_dropZeros, ht]
  have hofd : digitsVal (c :: r) =
      Nat.ofDigits 10 ((r.map (fun c => c.toNat - 48)).reverse ++ [c.toNat - 48]) := by
    rw [digitsVal_eq_ofDigits, List.map_cons, List.reverse_cons]
  have hlt : ∀ d ∈ (r.map (fun c => c.toNat - 48)).reverse ++ [c.toNat - 48], d < 10 := by
    intro d hd
    rw [List.mem_append, List.mem_reverse, List.mem_map] at hd
    rcases hd with ⟨x, hx, rfl⟩ | hd
    · have := List.all_eq_true.mp hrall x hx
      simp only [isDigitChar, Bool.and_eq_true, decide_eq_true_eq] at this
      omega
    · have := charVal_ne_zero c hcd hc0
      simp only [List.mem_singleton] at hd
      subst hd
      simp only [isDigitChar, Bool.and_eq_true, decide_eq_true_eq] at hcd
      omega
  have hlast : ∀ h : (r.map (fun c : Char => c.toNat - 48)).reverse ++ [c.toNat - 48] ≠ [],
      ((r.map (fun c : Char => c.toNat - 48)).reverse ++ [c.toNat - 48]).getLast h ≠ 0 := by
    intro h
    rw [List.getLast_append]
    exact charVal_ne_zero c hcd hc0
  have hdig := Nat.digits_ofDigits 10 (by norm_num)
    ((r.map (fun c => c.toNat - 48)).reverse ++ [c.toNat - 48]) hlt hlast
  constructor
  · rw [hN, natDecChars, hofd, hdig]
    rw [List.map_append, List.reverse_append]
    rw [List.map_reverse, List.reverse_reverse]
    simp only [List.map_map, List.map_cons, List.map_nil, List.reverse_cons, List.reverse_nil,
      List.nil_append, List.singleton_append]
    rw [Function.comp_def]
    rw [decDigitChar_charVal c hcd]
    rw [List.map_congr_left fun x hx => decDigitChar_charVal x (List.all_eq_true.mp hrall x hx)]
    rw [List.map_id']
  · rw [hN]
    intro h0
    rw [hofd] at h0
    have := hdig
    rw [h0, Nat.digits_zero] at this
    exact absurd this.symm (by simp)

/-- `atoll` on a digit-headed all-digit string accumulates all its digits. -/
theorem atoll_head_digit (s : String) (c : Char) (cs : List Char) (hd : s.data = c :: cs)
    (hdg : isDigitChar c = true) (hall : cs.all isDigitChar = true) :
    atoll s = (digitsVal (c :: cs) : Int) := by
  have hns : s.data.dropWhile isSpaceC = c :: cs := by
    rw [hd]
    apply List.dropWhile_cons_of_neg
    simp [isSpaceC_of_digit c hdg]
  have htw : (c :: cs).takeWhile isDigitChar = c :: cs :=
    takeWhile_of_all _ _ (by simp [List.all_cons, hdg, hall])
  simp only [atoll, atollChars]
  rw [hns]
  simp [List.head?_cons, ne_dash_of_digit c hdg, ne_plus_of_digit c hdg, htw]

/-- `atoll` on a `'-'`-headed string with all-digit tail negates the tail's
accumulated value. -/
theorem atoll_head_dash (s : String) (cs : List Char) (hd : s.data = '-' :: cs)
    (hall : cs.all isDigitChar = true) :
    atoll s = -(digitsVal cs : Int) := by
  have hns : s.data.dropWhile isSpaceC = '-' :: cs := by
    rw [hd]
    exact List.dropWhile_cons_of_neg (by decide)
  have htw : cs.takeWhile isDigitChar = cs := takeWhile_of_all _ _ hall
  simp only [atoll, atollChars]
  rw [hns]
  simp [List.head?_cons, htw]

/-- C8 counterexample: the claim quantifies over every string matching the
signed-integer grammar; `"-"` matches it (the scan accepts a bare sign), is
emitted as the JSON integer `atoll "-" = 0`, and the decimal text of that
integer is `"0"` — not the input `"-"`, which contains no leading zeros that
standard integer formatting could account for. -/
theorem claim8_counterexample :
    is_signed_int "-" = true ∧ classify_arg "-" = ArgVal.int 0 ∧
    intDecimalText (atoll "-") = "0" ∧ ("0" : String) ≠ "-" := by
  refine ⟨by decide, by decide, by decide, by decide⟩

/-- C8 (amended): for every argument string matching the signed-integer
grammar that contains at least one digit and whose emitted value lies in the
signed 64-bit range (outside it the C conversion is undefined), the decimal
text of the emitted JSON integer equals the input normalized only by standard
integer formatting of leading zeros (leading zeros stripped; a zero value
prints as `"0"` without a sign). -/
theorem claim8_integer_text (s : String) (h1 : is_signed_int s = true)
    (h2 : s.data.any isDigitChar = true)
    (h3 : -(2 ^ 63) ≤ atoll s) (h4 : atoll s < 2 ^ 63) :
    intDecimalText (atoll s) = normalizeIntString s := by
  cases hd : s.data with
  | nil =>
    rw [hd] at h2
    simp at h2
  | cons c cs =>
    have hsig : ((isDigitChar c || c == '-') && cs.all isDigitChar) = true := by
      rw [← is_signed_int_cons c cs s hd]
      exact h1
    simp only [Bool.and_eq_true, Bool.or_eq_true] at hsig
    obtain ⟨hc, hall⟩ := hsig
    by_cases hdg : isDigitChar c = true
    · have hv := atoll_head_digit s c cs hd hdg hall
      have hallc : (c :: cs).all isDigitChar = true := by simp [List.all_cons, hdg, hall]
      cases ht : (c :: cs).dropWhile (fun x => x == '0') with
      | nil =>
        have hz : digitsVal (c :: cs) = 0 := by
          rw [digitsVal_dropZeros, ht]
          rfl
        rw [hv, hz]
        simp [intDecimalText, normalizeIntString, hd, ne_dash_of_digit c hdg, ht]
      | cons c' r =>
        obtain ⟨hdec, hne⟩ := natDecChars_digitsVal (c :: cs) hallc c' r ht
        rw [hv]
        rw [intDecimalText]
        rw [if_neg (by simpa using hne), if_neg (by simp)]
        rw [Int.natAbs_ofNat, hdec]
        simp [normalizeIntString, hd, ne_dash_of_digit c hdg, ht]
    · have hceq : c = '-' := by
        rcases hc with hc | hc
        · exact absurd hc hdg
        · exact beq_iff_eq.mp hc
      subst hceq
      have hv := atoll_head_dash s cs hd hall
      cases ht : cs.dropWhile (fun x => x == '0') with
      | nil =>
        have hz : digitsVal cs = 0 := by
          rw [digitsVal_dropZeros, ht]
          rfl
        rw [hv, hz]
        simp [intDecimalText, normalizeIntString, hd, ht]
      | cons c' r =>
        obtain ⟨hdec, hne⟩ := natDecChars_digitsVal cs hall c' r ht
        have hpos : (0 : Int) < (digitsVal cs : Int) := by
          exact_mod_cast Nat.pos_of_ne_zero hne
        rw [hv]
        rw [intDecimalText]
        rw [if_neg (by omega), if_pos (by omega)]
        rw [Int.natAbs_neg, Int.natAbs_ofNat, hdec]
        simp [normalizeIntString, hd, ht]

/-- C8 witness: the amended statement evaluated at the in-grammar input
`"-007"`, whose emitted integer -7 prints as `"-7"`. -/
theorem claim8_integer_text_witness :
    intDecimalText (atoll "-007") = normalizeIntString "-007" :=
  claim8_integer_text "-007" (by decide) (by decide) (by decide) (by decide)

/-- C6 witness: the subscribe-branch traces evaluated at a concrete event
name and loop-observation bound. -/
theorem claim6_subscribe_trace_witness :
    subscribeModeTrace ["x"] false 3 =
      [ClientAct.send 5 (subscribePayload "x"), ClientAct.recvReply, ClientAct.recvReply] ∧
    subscribeModeTrace ["x"] true 3 =
      ClientAct.send 5 (subscribePayload "x") :: ClientAct.recvReply :: ClientAct.recvReply ::
        List.replicate 3 ClientAct.recvReply :=
  claim6_subscribe_trace "x" 3
